import Mathlib

/-!
# Verification of the tidb-dashboard remote log-retrieval task orchestrator

Shallow embedding of the two implementations of the log-retrieval task in the
repository:

* `src/pkg/apiserver/logsearch/task.go` (namespace `Logsearch`), and
* `src/pkg/apiserver/logs/task.go` (namespace `Logs`).

Each `Task.run` execution is modelled as a deterministic interpreter over an
environment (`Env`) that fixes the outcome of every external call the routine
makes, in program order: the gRPC dial, opening the log-search stream, the
directory/file/zip-entry creation of the sink, each `stream.Recv` (a list of
batches followed by an end-of-stream or receive error), each archive write,
each preview insert and each flush.  The interpreter threads a `RunState`
holding the task record's mutable fields, the filesystem paths the task
created, the archive content, the preview rows stored for the task, the last
record state persisted to the store, and a trace of the externally visible
events in the order the code performs them.  `Task.close` (the deferred
finalize routine) and `Task.Abort`'s check are modelled as functions on this
state.

The store client (`dbClient` resp. `DBClient`) and the `TaskModel` record are
defined outside the sampled sources; following the spec, store writes are
modelled as updates of the `previews` / `storeRecord` (`dbStatus`) components,
and a freshly constructed task record starts in the `Queued` state.
-/

/-- A log message of the diagnostics stream: millisecond-epoch time, numeric
level code and message text (diagnosticspb.LogMessage, external). -/
structure LogMessage where
  time : Int
  level : Int
  message : String
deriving DecidableEq

/-- Modelled from the spec: the diagnosticspb.LogLevel_name map (external to
the repository), rendering a level code by its name; codes outside the map
render as the empty string, as a Go map lookup miss does. -/
def logLevelName (l : Int) : String :=
  if l = 0 then "Unknown"
  else if l = 1 then "Debug"
  else if l = 2 then "Info"
  else if l = 3 then "Warn"
  else if l = 4 then "Trace"
  else if l = 5 then "Critical"
  else if l = 6 then "Error"
  else ""

/-- A decimal digit character. -/
def digitChar (d : Nat) : Char :=
  if d = 0 then '0'
  else if d = 1 then '1'
  else if d = 2 then '2'
  else if d = 3 then '3'
  else if d = 4 then '4'
  else if d = 5 then '5'
  else if d = 6 then '6'
  else if d = 7 then '7'
  else if d = 8 then '8'
  else '9'

/-- Decimal digits of `n` (most significant first), with explicit fuel. -/
def natDecimalAux : Nat → Nat → List Char
  | 0, _ => []
  | fuel + 1, n =>
    if n = 0 then [] else natDecimalAux fuel (n / 10) ++ [digitChar (n % 10)]

/-- Decimal rendering of a natural number. -/
def natDecimal (n : Nat) : String :=
  if n = 0 then "0" else String.mk (natDecimalAux (n + 1) n)

/-- Modelled from the spec: the fixed human-readable rendering of
`time.Unix(0, t·1ms)` in `sysutil.TimeStampLayout` (both external to the
repository), abstracted as a decimal rendering of the millisecond value. -/
def formatTimeMillis (t : Int) : String :=
  if t < 0 then "-" ++ natDecimal t.natAbs else natDecimal t.natAbs

/-- `toLine` of both task.go files: `fmt.Sprintf("[%s] [%s] %s\n", timeStr,
LogLevel_name[msg.Level], msg.Message)`. -/
def toLine (msg : LogMessage) : String :=
  "[" ++ formatTimeMillis msg.time ++ "] [" ++ logLevelName msg.level ++ "] "
    ++ msg.message ++ "\n"

/-- `path.Join` restricted to the two-component uses in the sources. -/
def pathJoin (a b : String) : String := a ++ "/" ++ b

/-- Task record states (TaskModel is defined outside the sampled sources;
the states are the ones named by the spec and used by task.go). -/
inductive TaskState
  | queued
  | running
  | finished
  | canceled
deriving DecidableEq

/-- Result of `Task.Abort`: success, or the "task [id] is not running"
error. -/
inductive AbortResult
  | ok
  | notRunning
deriving DecidableEq

/-- The outcome of the final `stream.Recv` call: `io.EOF`, or a receive
error with message `e`. -/
inductive RecvEnd
  | eof
  | recvErr (e : String)
deriving DecidableEq

/-- One received message together with the outcome of the external calls made
for it: the archive write and (if attempted) the store preview insert.
`none` means success; `some e` a failure with error text `e`. -/
structure MsgEv where
  msg : LogMessage
  writeErr : Option String
  storeErr : Option String
deriving DecidableEq

/-- One batch yielded by `stream.Recv`, with the outcome of the per-batch
`zw.Flush()` that follows it. -/
structure BatchEv where
  msgs : List MsgEv
  flushErr : Option String
deriving DecidableEq

/-- Externally visible events of one task execution, in program order. -/
inductive Event
  | dial
  | openStream
  | mkdir
  | createFile
  | zipCreate
  | setRunning
  | write
  | previewAppend
  | flush
  | removePath
  | cleanPreview
  | doneSignal
deriving DecidableEq

/-- `precedesB a b l`: some occurrence of `a` in `l` (the first one) is
followed, strictly later, by an occurrence of `b`. -/
def precedesB (a b : Event) : List Event → Bool
  | [] => false
  | x :: xs => if x = a then xs.any (fun y => y = b) else precedesB a b xs

namespace Logsearch

/-- The fields of `Component` used by task.go (the struct itself is defined
outside the sampled sources; these are the fields task.go reads). -/
structure Component where
  ip : String
  port : String
  statusPort : String
  serverType : String
deriving DecidableEq

/-- `Component.address`: status port for "tidb", main port otherwise. -/
def Component.address (c : Component) : String :=
  let port := if c.serverType = "tidb" then c.statusPort else c.port
  c.ip ++ ":" ++ port

/-- `Component.zipFilename`: `"<ip>-<port>.zip"`. -/
def Component.zipFilename (c : Component) : String :=
  c.ip ++ "-" ++ c.port ++ ".zip"

/-- `Component.logFilename`: `"<serverType>.log"`. -/
def Component.logFilename (c : Component) : String :=
  c.serverType ++ ".log"

/-- `PreviewLogLinesLimit` of logsearch/task.go. -/
def PreviewLogLinesLimit : Nat := 500

/-- Modelled from the spec: the package-level `logsSavePath` base directory
(set outside the sampled sources). -/
def logsSavePath : String := "/logs"

/-- The environment of one `Task.run` execution: outcomes of the external
calls in program order. -/
structure Env where
  dialErr : Option String
  streamOpenErr : Option String
  mkdirErr : Option String
  createErr : Option String
  zipEntryErr : Option String
  batches : List BatchEv
  ending : RecvEnd
deriving DecidableEq

/-- All setup steps (dial, stream open, mkdir, file create, zip entry
create) succeed. -/
def Env.setupOK (env : Env) : Prop :=
  env.dialErr = none ∧ env.streamOpenErr = none ∧ env.mkdirErr = none ∧
    env.createErr = none ∧ env.zipEntryErr = none

instance (env : Env) : Decidable env.setupOK := by
  unfold Env.setupOK; infer_instance

/-- Every store preview insert in the stream succeeds. -/
def Env.storeOK (env : Env) : Prop :=
  ∀ b ∈ env.batches, ∀ m ∈ b.msgs, m.storeErr = none

instance (env : Env) : Decidable env.storeOK := by
  unfold Env.storeOK; infer_instance

/-- Every archive write and every per-batch flush succeeds. -/
def Env.cleanBatches (env : Env) : Prop :=
  ∀ b ∈ env.batches, (∀ m ∈ b.msgs, m.writeErr = none) ∧ b.flushErr = none

instance (env : Env) : Decidable env.cleanBatches := by
  unfold Env.cleanBatches; infer_instance

/-- A well-formed environment: Go errors are non-nil, so the error strings
produced by failing calls are taken non-empty. -/
def Env.proper (env : Env) : Prop :=
  env.dialErr ≠ some "" ∧ env.streamOpenErr ≠ some "" ∧ env.mkdirErr ≠ some "" ∧
    env.createErr ≠ some "" ∧ env.zipEntryErr ≠ some "" ∧
    (∀ b ∈ env.batches,
      (∀ m ∈ b.msgs, m.writeErr ≠ some "") ∧ b.flushErr ≠ some "") ∧
    env.ending ≠ RecvEnd.recvErr ""

instance (env : Env) : Decidable env.proper := by
  unfold Env.proper; infer_instance

/-- All messages carried by the environment's batches, in stream order. -/
def Env.allMsgs (env : Env) : List LogMessage :=
  env.batches.foldr (fun b acc => b.msgs.map MsgEv.msg ++ acc) []

/-- The task's observable state: the record's mutable fields, the runtime
machinery (`cancel`), the filesystem and store footprint, and the event
trace. -/
structure RunState where
  error : String := ""
  savedPath : String := ""
  state : TaskState := TaskState.queued
  startTimeSet : Bool := false
  stopTimeSet : Bool := false
  cancelInstalled : Bool := false
  fsPaths : List String := []
  archiveEntries : List String := []
  archiveLines : List String := []
  archiveMsgs : List LogMessage := []
  previews : List LogMessage := []
  storeRecord : Option TaskState := none
  events : List Event := []
deriving DecidableEq

/-- The inner `for _, msg := range res.Messages` loop of `Task.run`: write
the formatted line to the zip entry (a failure sets `t.Error` and returns),
then, while the preview count is below the limit, call `dbClient.newPreview`
— whose result the code discards — and increment the count. -/
def processMsgs : List MsgEv → Nat → RunState → RunState × Nat × Bool
  | [], n, s => (s, n, false)
  | m :: rest, n, s =>
    match m.writeErr with
    | some e => ({ s with error := e, events := s.events ++ [Event.write] }, n, true)
    | none =>
      if n < PreviewLogLinesLimit then
        match m.storeErr with
        | none =>
          processMsgs rest (n + 1)
            { s with
              archiveLines := s.archiveLines ++ [toLine m.msg],
              archiveMsgs := s.archiveMsgs ++ [m.msg],
              previews := s.previews ++ [m.msg],
              events := s.events ++ [Event.write, Event.previewAppend] }
        | some _ =>
          processMsgs rest (n + 1)
            { s with
              archiveLines := s.archiveLines ++ [toLine m.msg],
              archiveMsgs := s.archiveMsgs ++ [m.msg],
              events := s.events ++ [Event.write, Event.previewAppend] }
      else
        processMsgs rest n
          { s with
            archiveLines := s.archiveLines ++ [toLine m.msg],
            archiveMsgs := s.archiveMsgs ++ [m.msg],
            events := s.events ++ [Event.write] }

/-- The receive loop of `Task.run`: `stream.Recv` yields the batches in
order and then the ending; each batch is processed and followed by
`zw.Flush()`, whose failure sets `t.Error` and returns.  On `io.EOF` the
loop returns with `t.Error` untouched; on any other receive error it stores
the error text. -/
def runLoop : List BatchEv → RecvEnd → Nat → RunState → RunState
  | [], ending, _, s =>
    match ending with
    | RecvEnd.eof => s
    | RecvEnd.recvErr e => { s with error := e }
  | b :: rest, ending, n, s =>
    match processMsgs b.msgs n s with
    | (s1, _, true) => s1
    | (s1, n1, false) =>
      match b.flushErr with
      | some e => { s1 with error := e, events := s1.events ++ [Event.flush] }
      | none => runLoop rest ending n1 { s1 with events := s1.events ++ [Event.flush] }

/-- The body of `Task.run` before the deferred `close`: install the
cancellation handle, dial, open the stream, create the sink directory, the
archive file and the zip entry (only then assign `t.SavedPath`), persist the
`Running` record (`deleteTask` + `createTask`), then run the receive loop.
Any failure stores its error text in `t.Error` and returns. -/
def runBody (c : Component) (gid : String) (env : Env) : RunState :=
  let s1 : RunState := { cancelInstalled := true, events := [Event.dial] }
  match env.dialErr with
  | some e => { s1 with error := e }
  | none =>
    let s2 := { s1 with events := s1.events ++ [Event.openStream] }
    match env.streamOpenErr with
    | some e => { s2 with error := e }
    | none =>
      let dir := pathJoin logsSavePath gid
      let s3 := { s2 with events := s2.events ++ [Event.mkdir] }
      match env.mkdirErr with
      | some e => { s3 with error := e }
      | none =>
        let savedPath := pathJoin dir c.zipFilename
        let s4 := { s3 with events := s3.events ++ [Event.createFile] }
        match env.createErr with
        | some e => { s4 with error := e }
        | none =>
          let s5 := { s4 with
            fsPaths := s4.fsPaths ++ [savedPath],
            events := s4.events ++ [Event.zipCreate] }
          match env.zipEntryErr with
          | some e => { s5 with error := e }
          | none =>
            let s6 := { s5 with
              archiveEntries := s5.archiveEntries ++ [c.logFilename],
              savedPath := savedPath }
            let s7 := { s6 with
              startTimeSet := true,
              state := TaskState.running,
              storeRecord := some TaskState.running,
              events := s6.events ++ [Event.setRunning] }
            runLoop env.batches env.ending 0 s7

/-- `Task.clean`: remove `t.SavedPath` from the filesystem when it was set,
then delete the task's preview rows (`dbClient.cleanPreview`). -/
def cleanFn (s : RunState) : RunState :=
  if s.savedPath = "" then
    { s with previews := [], events := s.events ++ [Event.cleanPreview] }
  else
    { s with
      fsPaths := s.fsPaths.filter (fun p => decide (p ≠ s.savedPath)),
      previews := [],
      events := s.events ++ [Event.removePath, Event.cleanPreview] }

/-- `Task.close`: on a recorded error, clean up and persist the record as
`Canceled`; otherwise persist it as `Finished`.  Both paths set `StopTime`.
The deferred `t.done()` signals the rendezvous channel last, after the whole
body, when an aborter installed one (`waiting`). -/
def closeFn (waiting : Bool) (s : RunState) : RunState :=
  let s1 :=
    if s.error ≠ "" then
      { cleanFn s with
        stopTimeSet := true,
        state := TaskState.canceled,
        storeRecord := some TaskState.canceled }
    else
      { s with
        stopTimeSet := true,
        state := TaskState.finished,
        storeRecord := some TaskState.finished }
  if waiting then { s1 with events := s1.events ++ [Event.doneSignal] } else s1

/-- One complete `Task.run` including the deferred `close`. -/
def runTask (c : Component) (gid : String) (waiting : Bool) (env : Env) : RunState :=
  closeFn waiting (runBody c gid env)

/-- `Task.Abort`: if the cancellation handle was never installed, return the
not-running error and touch nothing; otherwise install the rendezvous
channel, cancel, and wait for `done` (the wait is modelled by running the
task with `waiting = true`, whose trace ends in `Event.doneSignal`). -/
def abort (s : RunState) : AbortResult × RunState :=
  if s.cancelInstalled then (AbortResult.ok, s) else (AbortResult.notRunning, s)

end Logsearch

namespace Logs

/-- `ReqInfo` of logs/task.go. -/
structure ReqInfo where
  serverType : String
  ip : String
  port : String
deriving DecidableEq

/-- `ReqInfo.address`: `"<ip>:<port>"`. -/
def ReqInfo.address (r : ReqInfo) : String := r.ip ++ ":" ++ r.port

/-- `ReqInfo.zipFilename`: `"<ip>-<port>.zip"`. -/
def ReqInfo.zipFilename (r : ReqInfo) : String := r.ip ++ "-" ++ r.port ++ ".zip"

/-- `ReqInfo.logFilename`: `"<serverType>.log"`. -/
def ReqInfo.logFilename (r : ReqInfo) : String := r.serverType ++ ".log"

/-- `PreviewLogLinesLimit` of logs/task.go. -/
def PreviewLogLinesLimit : Nat := 100

/-- Modelled from the spec: `os.TempDir()` (external). -/
def tempDir : String := "/tmp"

/-- The environment of one logs `Task.run` execution; compared with
logsearch it has the additional checked `db.startTask` call. -/
structure Env where
  dialErr : Option String
  streamOpenErr : Option String
  mkdirErr : Option String
  createErr : Option String
  zipEntryErr : Option String
  startTaskErr : Option String
  batches : List BatchEv
  ending : RecvEnd
deriving DecidableEq

/-- All setup steps of the logs variant succeed. -/
def Env.setupOK (env : Env) : Prop :=
  env.dialErr = none ∧ env.streamOpenErr = none ∧ env.mkdirErr = none ∧
    env.createErr = none ∧ env.zipEntryErr = none ∧ env.startTaskErr = none

instance (env : Env) : Decidable env.setupOK := by
  unfold Env.setupOK; infer_instance

/-- The persisted record status written by the `DBClient` calls of
logs/task.go (their bodies are outside the sampled sources; following the
spec they mark the record started / canceled / finished). -/
inductive DbStatus
  | taskStarted
  | taskCanceled
  | taskFinished
deriving DecidableEq

/-- Observable state of one logs task execution. -/
structure RunState where
  err : Option String := none
  savedPath : String := ""
  cancelInstalled : Bool := false
  fsPaths : List String := []
  archiveEntries : List String := []
  archiveLines : List String := []
  archiveMsgs : List LogMessage := []
  previews : List LogMessage := []
  dbStatus : Option DbStatus := none
  events : List Event := []
deriving DecidableEq

/-- The inner message loop of logs `Task.run`: write the line (failure sets
`t.err` and returns), then, while under the limit, `db.insertLineToPreview`
— here the error IS checked and propagated — and the count is incremented
only on success. -/
def processMsgs : List MsgEv → Nat → RunState → RunState × Nat × Bool
  | [], n, s => (s, n, false)
  | m :: rest, n, s =>
    match m.writeErr with
    | some e => ({ s with err := some e, events := s.events ++ [Event.write] }, n, true)
    | none =>
      if n < PreviewLogLinesLimit then
        match m.storeErr with
        | some e =>
          ({ s with
              archiveLines := s.archiveLines ++ [toLine m.msg],
              archiveMsgs := s.archiveMsgs ++ [m.msg],
              err := some e,
              events := s.events ++ [Event.write, Event.previewAppend] }, n, true)
        | none =>
          processMsgs rest (n + 1)
            { s with
              archiveLines := s.archiveLines ++ [toLine m.msg],
              archiveMsgs := s.archiveMsgs ++ [m.msg],
              previews := s.previews ++ [m.msg],
              events := s.events ++ [Event.write, Event.previewAppend] }
      else
        processMsgs rest n
          { s with
            archiveLines := s.archiveLines ++ [toLine m.msg],
            archiveMsgs := s.archiveMsgs ++ [m.msg],
            events := s.events ++ [Event.write] }

/-- The receive loop of logs `Task.run`. -/
def runLoop : List BatchEv → RecvEnd → Nat → RunState → RunState
  | [], ending, _, s =>
    match ending with
    | RecvEnd.eof => s
    | RecvEnd.recvErr e => { s with err := some e }
  | b :: rest, ending, n, s =>
    match processMsgs b.msgs n s with
    | (s1, _, true) => s1
    | (s1, n1, false) =>
      match b.flushErr with
      | some e => { s1 with err := some e, events := s1.events ++ [Event.flush] }
      | none => runLoop rest ending n1 { s1 with events := s1.events ++ [Event.flush] }

/-- The body of logs `Task.run`: install the cancellation handle, dial, open
the stream, `CreateFile` (mkdir, file create, zip entry create;
`t.savedPath` and `t.writer` are assigned only after all three succeed),
then the checked `db.startTask`, then the receive loop. -/
def runBody (r : ReqInfo) (gid : String) (env : Env) : RunState :=
  let s1 : RunState := { cancelInstalled := true, events := [Event.dial] }
  match env.dialErr with
  | some e => { s1 with err := some e }
  | none =>
    let s2 := { s1 with events := s1.events ++ [Event.openStream] }
    match env.streamOpenErr with
    | some e => { s2 with err := some e }
    | none =>
      let dir := pathJoin (pathJoin tempDir "dashboard-logs") gid
      let s3 := { s2 with events := s2.events ++ [Event.mkdir] }
      match env.mkdirErr with
      | some e => { s3 with err := some e }
      | none =>
        let savedPath := pathJoin dir r.zipFilename
        let s4 := { s3 with events := s3.events ++ [Event.createFile] }
        match env.createErr with
        | some e => { s4 with err := some e }
        | none =>
          let s5 := { s4 with
            fsPaths := s4.fsPaths ++ [savedPath],
            events := s4.events ++ [Event.zipCreate] }
          match env.zipEntryErr with
          | some e => { s5 with err := some e }
          | none =>
            let s6 := { s5 with
              archiveEntries := s5.archiveEntries ++ [r.logFilename],
              savedPath := savedPath }
            match env.startTaskErr with
            | some e => { s6 with err := some e }
            | none =>
              let s7 := { s6 with dbStatus := some DbStatus.taskStarted }
              runLoop env.batches env.ending 0 s7

/-- logs `Task.close`: on a recorded error, `os.RemoveAll(t.savedPath)` and
`db.cancelTask`; otherwise `db.finishTask`.  (`cancelTask`/`finishTask`
bodies are outside the sampled sources; modelled from the spec as marking
the persisted record.) -/
def closeFn (s : RunState) : RunState :=
  match s.err with
  | some _ =>
    { s with
      fsPaths := s.fsPaths.filter (fun p => decide (p ≠ s.savedPath)),
      dbStatus := some DbStatus.taskCanceled,
      events := s.events ++ [Event.removePath] }
  | none => { s with dbStatus := some DbStatus.taskFinished }

/-- One complete logs `Task.run` including the deferred `close`. -/
def runTask (r : ReqInfo) (gid : String) (env : Env) : RunState :=
  closeFn (runBody r gid env)

/-- logs `Task.Abort`: return the not-running error when the cancellation
handle was never installed; otherwise cancel and return immediately — the
logs variant has no rendezvous with `close`. -/
def abort (s : RunState) : AbortResult × RunState :=
  if s.cancelInstalled then (AbortResult.ok, s) else (AbortResult.notRunning, s)

end Logs

namespace Logsearch

/-- The fields of the task state never touched by the receive loop. -/
def frameOf (s : RunState) :=
  (s.savedPath, s.fsPaths, s.archiveEntries, s.cancelInstalled, s.state,
    s.startTimeSet, s.storeRecord)

theorem frame_savedPath {s t : RunState} (h : frameOf s = frameOf t) :
    s.savedPath = t.savedPath :=
  congrArg (fun x => x.1) h

theorem frame_fsPaths {s t : RunState} (h : frameOf s = frameOf t) :
    s.fsPaths = t.fsPaths :=
  congrArg (fun x => x.2.1) h

theorem frame_archiveEntries {s t : RunState} (h : frameOf s = frameOf t) :
    s.archiveEntries = t.archiveEntries :=
  congrArg (fun x => x.2.2.1) h

theorem frame_cancelInstalled {s t : RunState} (h : frameOf s = frameOf t) :
    s.cancelInstalled = t.cancelInstalled :=
  congrArg (fun x => x.2.2.2.1) h

theorem frame_state {s t : RunState} (h : frameOf s = frameOf t) :
    s.state = t.state :=
  congrArg (fun x => x.2.2.2.2.1) h

theorem frame_storeRecord {s t : RunState} (h : frameOf s = frameOf t) :
    s.storeRecord = t.storeRecord :=
  congrArg (fun x => x.2.2.2.2.2.2) h

theorem processMsgs_frame (ms : List MsgEv) : ∀ (n : Nat) (s : RunState),
    frameOf (processMsgs ms n s).1 = frameOf s := by
  induction ms with
  | nil => intro n s; rfl
  | cons m rest ih =>
    intro n s
    cases hw : m.writeErr with
    | some e => simp [processMsgs, hw, frameOf]
    | none =>
      by_cases hn : n < PreviewLogLinesLimit
      · cases hst : m.storeErr with
        | none => simp only [processMsgs, hw, if_pos hn, hst]; exact ih _ _
        | some e2 => simp only [processMsgs, hw, if_pos hn, hst]; exact ih _ _
      · simp only [processMsgs, hw, if_neg hn]; exact ih _ _

theorem runLoop_frame (bs : List BatchEv) : ∀ (ending : RecvEnd) (n : Nat) (s : RunState),
    frameOf (runLoop bs ending n s) = frameOf s := by
  induction bs with
  | nil => intro ending n s; cases ending <;> rfl
  | cons b rest ih =>
    intro ending n s
    have hf := processMsgs_frame b.msgs n s
    rcases hp : processMsgs b.msgs n s with ⟨s1, n1, ab⟩
    rw [hp] at hf
    cases ab
    · cases hfl : b.flushErr with
      | some e =>
        simp only [runLoop, hp, hfl]
        exact hf
      | none =>
        simp only [runLoop, hp, hfl]
        exact (ih ending n1 _).trans hf
    · simp only [runLoop, hp]
      exact hf

/-- The archive path used by the logsearch task. -/
def archivePath (c : Component) (gid : String) : String :=
  pathJoin (pathJoin logsSavePath gid) c.zipFilename

/-- The task state right after the `Running` transition, entering the
receive loop. -/
def postSetupState (c : Component) (gid : String) : RunState :=
  { cancelInstalled := true,
    savedPath := archivePath c gid,
    fsPaths := [archivePath c gid],
    archiveEntries := [c.logFilename],
    startTimeSet := true,
    state := TaskState.running,
    storeRecord := some TaskState.running,
    events := [Event.dial, Event.openStream, Event.mkdir, Event.createFile,
      Event.zipCreate, Event.setRunning] }

theorem runBody_dialFail (c : Component) (gid : String) (env : Env) (e : String)
    (hd : env.dialErr = some e) :
    runBody c gid env =
      { error := e, cancelInstalled := true, events := [Event.dial] } := by
  simp [runBody, hd]

theorem runBody_streamFail (c : Component) (gid : String) (env : Env) (e : String)
    (hd : env.dialErr = none) (hs : env.streamOpenErr = some e) :
    runBody c gid env =
      { error := e, cancelInstalled := true,
        events := [Event.dial, Event.openStream] } := by
  simp [runBody, hd, hs]

theorem runBody_mkdirFail (c : Component) (gid : String) (env : Env) (e : String)
    (hd : env.dialErr = none) (hs : env.streamOpenErr = none)
    (hm : env.mkdirErr = some e) :
    runBody c gid env =
      { error := e, cancelInstalled := true,
        events := [Event.dial, Event.openStream, Event.mkdir] } := by
  simp [runBody, hd, hs, hm]

theorem runBody_createFail (c : Component) (gid : String) (env : Env) (e : String)
    (hd : env.dialErr = none) (hs : env.streamOpenErr = none)
    (hm : env.mkdirErr = none) (hc : env.createErr = some e) :
    runBody c gid env =
      { error := e, cancelInstalled := true,
        events := [Event.dial, Event.openStream, Event.mkdir, Event.createFile] } := by
  simp [runBody, hd, hs, hm, hc]

theorem runBody_zipFail (c : Component) (gid : String) (env : Env) (e : String)
    (hd : env.dialErr = none) (hs : env.streamOpenErr = none)
    (hm : env.mkdirErr = none) (hc : env.createErr = none)
    (hz : env.zipEntryErr = some e) :
    runBody c gid env =
      { error := e, cancelInstalled := true,
        fsPaths := [archivePath c gid],
        events := [Event.dial, Event.openStream, Event.mkdir, Event.createFile,
          Event.zipCreate] } := by
  simp [runBody, hd, hs, hm, hc, hz, archivePath]

theorem runBody_setup (c : Component) (gid : String) (env : Env)
    (hd : env.dialErr = none) (hs : env.streamOpenErr = none)
    (hm : env.mkdirErr = none) (hc : env.createErr = none)
    (hz : env.zipEntryErr = none) :
    runBody c gid env = runLoop env.batches env.ending 0 (postSetupState c gid) := by
  simp [runBody, hd, hs, hm, hc, hz, postSetupState, archivePath]

theorem closeFn_error (w : Bool) (s : RunState) (h : s.error ≠ "") :
    (closeFn w s).error = s.error ∧
    (closeFn w s).state = TaskState.canceled ∧
    (closeFn w s).stopTimeSet = true ∧
    (closeFn w s).storeRecord = some TaskState.canceled ∧
    (closeFn w s).previews = [] ∧
    (closeFn w s).savedPath = s.savedPath ∧
    (closeFn w s).fsPaths =
      (if s.savedPath = "" then s.fsPaths
        else s.fsPaths.filter (fun p => decide (p ≠ s.savedPath))) := by
  unfold closeFn cleanFn
  by_cases h2 : s.savedPath = "" <;> cases w <;> simp [h, h2]

theorem closeFn_ok (w : Bool) (s : RunState) (h : s.error = "") :
    (closeFn w s).error = "" ∧
    (closeFn w s).state = TaskState.finished ∧
    (closeFn w s).stopTimeSet = true ∧
    (closeFn w s).storeRecord = some TaskState.finished ∧
    (closeFn w s).previews = s.previews ∧
    (closeFn w s).savedPath = s.savedPath ∧
    (closeFn w s).fsPaths = s.fsPaths ∧
    (closeFn w s).archiveEntries = s.archiveEntries ∧
    (closeFn w s).archiveLines = s.archiveLines ∧
    (closeFn w s).archiveMsgs = s.archiveMsgs := by
  unfold closeFn cleanFn
  cases w <;> simp [h]

theorem closeFn_lines (w : Bool) (s : RunState) :
    (closeFn w s).archiveLines = s.archiveLines ∧
    (closeFn w s).archiveMsgs = s.archiveMsgs := by
  unfold closeFn cleanFn
  by_cases h : s.error = "" <;> by_cases h2 : s.savedPath = "" <;> cases w <;> simp [h, h2]

theorem closeFn_events (w : Bool) (s : RunState) :
    ∃ δ, (closeFn w s).events = s.events ++ δ ∧
      ∀ ev ∈ δ, ev = Event.removePath ∨ ev = Event.cleanPreview ∨ ev = Event.doneSignal := by
  unfold closeFn cleanFn
  by_cases h : s.error = "" <;> by_cases h2 : s.savedPath = "" <;> cases w
  · exact ⟨[], by simp [h, h2], by simp⟩
  · exact ⟨[Event.doneSignal], by simp [h, h2], by simp⟩
  · exact ⟨[], by simp [h, h2], by simp⟩
  · exact ⟨[Event.doneSignal], by simp [h, h2], by simp⟩
  · exact ⟨[Event.cleanPreview], by simp [h, h2], by simp⟩
  · exact ⟨[Event.cleanPreview, Event.doneSignal], by simp [h, h2], by simp⟩
  · exact ⟨[Event.removePath, Event.cleanPreview], by simp [h, h2], by simp⟩
  · exact ⟨[Event.removePath, Event.cleanPreview, Event.doneSignal], by simp [h, h2], by simp⟩

theorem closeFn_true_last (s : RunState) :
    (closeFn true s).events.getLast? = some Event.doneSignal := by
  unfold closeFn cleanFn
  by_cases h : s.error = "" <;> by_cases h2 : s.savedPath = "" <;>
    simp [h, h2, List.getLast?_concat]

theorem closeFn_savedPath (w : Bool) (s : RunState) :
    (closeFn w s).savedPath = s.savedPath := by
  unfold closeFn cleanFn
  by_cases h : s.error = "" <;> by_cases h2 : s.savedPath = "" <;> cases w <;> simp [h, h2]

theorem closeFn_earlyFail (w : Bool) (s : RunState) (he : s.error ≠ "")
    (hsp : s.savedPath = "") :
    (closeFn w s).state = TaskState.canceled ∧
    (closeFn w s).error = s.error ∧
    (closeFn w s).savedPath = "" ∧
    (closeFn w s).fsPaths = s.fsPaths ∧
    ∃ δ, (closeFn w s).events = s.events ++ δ ∧
      ∀ ev ∈ δ, ev = Event.removePath ∨ ev = Event.cleanPreview ∨ ev = Event.doneSignal := by
  obtain ⟨e1, e2, e3, e4, e5, e6, e7⟩ := closeFn_error w s he
  obtain ⟨δ, hδ, hcl⟩ := closeFn_events w s
  exact ⟨e2, e1, e6.trans hsp, by rw [e7, if_pos hsp], ⟨δ, hδ, hcl⟩⟩

theorem processMsgs_ok (ms : List MsgEv) : ∀ (n : Nat) (s : RunState),
    (∀ m ∈ ms, m.writeErr = none) →
    (processMsgs ms n s).2.2 = false ∧ (processMsgs ms n s).1.error = s.error := by
  induction ms with
  | nil => intro n s _; simp [processMsgs]
  | cons m rest ih =>
    intro n s h
    have hw : m.writeErr = none := h m (List.mem_cons_self m rest)
    have hrest : ∀ m2 ∈ rest, m2.writeErr = none := fun m2 hm2 => h m2 (List.mem_cons_of_mem m hm2)
    by_cases hn : n < PreviewLogLinesLimit
    · cases hst : m.storeErr with
      | none => simp only [processMsgs, hw, if_pos hn, hst]; exact ih _ _ hrest
      | some e2 => simp only [processMsgs, hw, if_pos hn, hst]; exact ih _ _ hrest
    · simp only [processMsgs, hw, if_neg hn]; exact ih _ _ hrest

theorem processMsgs_abortErr (ms : List MsgEv) : ∀ (n : Nat) (s : RunState),
    (∀ m ∈ ms, m.writeErr ≠ some "") →
    (processMsgs ms n s).2.2 = true → (processMsgs ms n s).1.error ≠ "" := by
  induction ms with
  | nil => intro n s _ hab; simp [processMsgs] at hab
  | cons m rest ih =>
    intro n s h
    have hw := h m (List.mem_cons_self m rest)
    have hrest : ∀ m2 ∈ rest, m2.writeErr ≠ some "" :=
      fun m2 hm2 => h m2 (List.mem_cons_of_mem m hm2)
    cases hwe : m.writeErr with
    | some e =>
      intro _
      simp only [processMsgs, hwe]
      intro he
      exact hw (by rw [hwe, he])
    | none =>
      by_cases hn : n < PreviewLogLinesLimit
      · cases hst : m.storeErr with
        | none => simp only [processMsgs, hwe, if_pos hn, hst]; exact ih _ _ hrest
        | some e2 => simp only [processMsgs, hwe, if_pos hn, hst]; exact ih _ _ hrest
      · simp only [processMsgs, hwe, if_neg hn]; exact ih _ _ hrest

theorem runLoop_clean_eof (bs : List BatchEv) : ∀ (n : Nat) (s : RunState),
    (∀ b ∈ bs, (∀ m ∈ b.msgs, m.writeErr = none) ∧ b.flushErr = none) →
    (runLoop bs RecvEnd.eof n s).error = s.error := by
  induction bs with
  | nil => intro n s _; rfl
  | cons b rest ih =>
    intro n s h
    have hb := h b (List.mem_cons_self b rest)
    have hrest : ∀ b2 ∈ rest, (∀ m ∈ b2.msgs, m.writeErr = none) ∧ b2.flushErr = none :=
      fun b2 hb2 => h b2 (List.mem_cons_of_mem b hb2)
    have hok := processMsgs_ok b.msgs n s hb.1
    rcases hp : processMsgs b.msgs n s with ⟨s1, n1, ab⟩
    rw [hp] at hok
    simp only at hok
    cases ab
    · simp only [runLoop, hp, hb.2]
      exact (ih n1 _ hrest).trans hok.2
    · exact absurd hok.1 (by simp)

theorem runLoop_clean_recvErr (bs : List BatchEv) (e : String) : ∀ (n : Nat) (s : RunState),
    (∀ b ∈ bs, (∀ m ∈ b.msgs, m.writeErr = none) ∧ b.flushErr = none) →
    (runLoop bs (RecvEnd.recvErr e) n s).error = e := by
  induction bs with
  | nil => intro n s _; rfl
  | cons b rest ih =>
    intro n s h
    have hb := h b (List.mem_cons_self b rest)
    have hrest : ∀ b2 ∈ rest, (∀ m ∈ b2.msgs, m.writeErr = none) ∧ b2.flushErr = none :=
      fun b2 hb2 => h b2 (List.mem_cons_of_mem b hb2)
    have hok := processMsgs_ok b.msgs n s hb.1
    rcases hp : processMsgs b.msgs n s with ⟨s1, n1, ab⟩
    rw [hp] at hok
    simp only at hok
    cases ab
    · simp only [runLoop, hp, hb.2]
      exact ih n1 _ hrest
    · exact absurd hok.1 (by simp)

theorem runLoop_recvErr_ne (bs : List BatchEv) (e : String) (he : e ≠ "") :
    ∀ (n : Nat) (s : RunState),
    (∀ b ∈ bs, (∀ m ∈ b.msgs, m.writeErr ≠ some "") ∧ b.flushErr ≠ some "") →
    (runLoop bs (RecvEnd.recvErr e) n s).error ≠ "" := by
  induction bs with
  | nil => intro n s _; simpa [runLoop] using he
  | cons b rest ih =>
    intro n s h
    have hb := h b (List.mem_cons_self b rest)
    have hrest : ∀ b2 ∈ rest, (∀ m ∈ b2.msgs, m.writeErr ≠ some "") ∧ b2.flushErr ≠ some "" :=
      fun b2 hb2 => h b2 (List.mem_cons_of_mem b hb2)
    have habort := processMsgs_abortErr b.msgs n s hb.1
    rcases hp : processMsgs b.msgs n s with ⟨s1, n1, ab⟩
    rw [hp] at habort
    simp only at habort
    cases ab
    · cases hfl : b.flushErr with
      | some e2 =>
        simp only [runLoop, hp, hfl]
        intro h2
        exact hb.2 (by rw [hfl, h2])
      | none =>
        simp only [runLoop, hp, hfl]
        exact ih n1 _ hrest
    · simp only [runLoop, hp]
      exact habort rfl

theorem processMsgs_count_of_ne (ms : List MsgEv) (ev : Event)
    (h1 : ev ≠ Event.write) (h2 : ev ≠ Event.previewAppend) : ∀ (n : Nat) (s : RunState),
    (processMsgs ms n s).1.events.count ev = s.events.count ev := by
  induction ms with
  | nil => intro n s; rfl
  | cons m rest ih =>
    intro n s
    cases hw : m.writeErr with
    | some e =>
      simp [processMsgs, hw, List.count_append, List.count_cons, Ne.symm h1]
    | none =>
      by_cases hn : n < PreviewLogLinesLimit
      · cases hst : m.storeErr with
        | none =>
          simp only [processMsgs, hw, if_pos hn, hst]
          rw [ih]
          simp [List.count_append, List.count_cons, Ne.symm h1, Ne.symm h2]
        | some e2 =>
          simp only [processMsgs, hw, if_pos hn, hst]
          rw [ih]
          simp [List.count_append, List.count_cons, Ne.symm h1, Ne.symm h2]
      · simp only [processMsgs, hw, if_neg hn]
        rw [ih]
        simp [List.count_append, List.count_cons, Ne.symm h1]

theorem runLoop_count_of_ne (bs : List BatchEv) (ev : Event)
    (h1 : ev ≠ Event.write) (h2 : ev ≠ Event.previewAppend) (h3 : ev ≠ Event.flush) :
    ∀ (ending : RecvEnd) (n : Nat) (s : RunState),
    (runLoop bs ending n s).events.count ev = s.events.count ev := by
  induction bs with
  | nil => intro ending n s; cases ending <;> rfl
  | cons b rest ih =>
    intro ending n s
    have hc := processMsgs_count_of_ne b.msgs ev h1 h2 n s
    rcases hp : processMsgs b.msgs n s with ⟨s1, n1, ab⟩
    rw [hp] at hc
    simp only at hc
    cases ab
    · cases hfl : b.flushErr with
      | some e =>
        simp only [runLoop, hp, hfl]
        simp [List.count_append, List.count_cons, Ne.symm h3, hc]
      | none =>
        simp only [runLoop, hp, hfl]
        rw [ih]
        simp [List.count_append, List.count_cons, Ne.symm h3, hc]
    · simp only [runLoop, hp]
      exact hc

theorem processMsgs_cap (ms : List MsgEv) : ∀ (n : Nat) (s : RunState),
    s.previews.length ≤ n → n ≤ PreviewLogLinesLimit →
    (processMsgs ms n s).1.previews.length ≤ (processMsgs ms n s).2.1 ∧
    (processMsgs ms n s).2.1 ≤ PreviewLogLinesLimit := by
  induction ms with
  | nil => intro n s h1 h2; exact ⟨h1, h2⟩
  | cons m rest ih =>
    intro n s h1 h2
    cases hw : m.writeErr with
    | some e => simp only [processMsgs, hw]; exact ⟨h1, h2⟩
    | none =>
      by_cases hn : n < PreviewLogLinesLimit
      · cases hst : m.storeErr with
        | none =>
          simp only [processMsgs, hw, if_pos hn, hst]
          exact ih (n + 1) _ (by simp; omega) (by omega)
        | some e2 =>
          simp only [processMsgs, hw, if_pos hn, hst]
          exact ih (n + 1) _ (by simp; omega) (by omega)
      · simp only [processMsgs, hw, if_neg hn]
        exact ih n _ (by simpa using h1) h2

theorem runLoop_cap (bs : List BatchEv) : ∀ (ending : RecvEnd) (n : Nat) (s : RunState),
    s.previews.length ≤ n → n ≤ PreviewLogLinesLimit →
    (runLoop bs ending n s).previews.length ≤ PreviewLogLinesLimit := by
  induction bs with
  | nil =>
    intro ending n s h1 h2
    cases ending <;> simpa [runLoop] using h1.trans h2
  | cons b rest ih =>
    intro ending n s h1 h2
    have hcap := processMsgs_cap b.msgs n s h1 h2
    rcases hp : processMsgs b.msgs n s with ⟨s1, n1, ab⟩
    rw [hp] at hcap
    simp only at hcap
    cases ab
    · cases hfl : b.flushErr with
      | some e =>
        simp only [runLoop, hp, hfl]
        exact hcap.1.trans hcap.2
      | none =>
        simp only [runLoop, hp, hfl]
        exact ih ending n1 _ (by simpa using hcap.1) hcap.2
    · simp only [runLoop, hp]
      exact hcap.1.trans hcap.2

theorem processMsgs_take (ms : List MsgEv) : ∀ (n : Nat) (s : RunState),
    (∀ m ∈ ms, m.storeErr = none) →
    s.previews = s.archiveMsgs.take PreviewLogLinesLimit →
    n = min PreviewLogLinesLimit s.archiveMsgs.length →
    (processMsgs ms n s).1.previews =
      (processMsgs ms n s).1.archiveMsgs.take PreviewLogLinesLimit ∧
    (processMsgs ms n s).2.1 =
      min PreviewLogLinesLimit (processMsgs ms n s).1.archiveMsgs.length := by
  induction ms with
  | nil => intro n s _ h1 h2; exact ⟨h1, h2⟩
  | cons m rest ih =>
    intro n s hstore h1 h2
    have hst : m.storeErr = none := hstore m (List.mem_cons_self m rest)
    have hrest : ∀ m2 ∈ rest, m2.storeErr = none :=
      fun m2 hm2 => hstore m2 (List.mem_cons_of_mem m hm2)
    cases hw : m.writeErr with
    | some e => simp only [processMsgs, hw]; exact ⟨h1, h2⟩
    | none =>
      by_cases hn : n < PreviewLogLinesLimit
      · have hlen : s.archiveMsgs.length < PreviewLogLinesLimit := by omega
        simp only [processMsgs, hw, if_pos hn, hst]
        refine ih (n + 1) _ hrest ?_ ?_
        · show s.previews ++ [m.msg] =
            (s.archiveMsgs ++ [m.msg]).take PreviewLogLinesLimit
          rw [List.take_of_length_le (by simp; omega), h1,
            List.take_of_length_le (by omega)]
        · show n + 1 = min PreviewLogLinesLimit (s.archiveMsgs ++ [m.msg]).length
          simp
          omega
      · have hlen : PreviewLogLinesLimit ≤ s.archiveMsgs.length := by omega
        simp only [processMsgs, hw, if_neg hn]
        refine ih n _ hrest ?_ ?_
        · show s.previews = (s.archiveMsgs ++ [m.msg]).take PreviewLogLinesLimit
          rw [List.take_append_of_le_length hlen]
          exact h1
        · show n = min PreviewLogLinesLimit (s.archiveMsgs ++ [m.msg]).length
          simp
          omega

theorem runLoop_take (bs : List BatchEv) : ∀ (ending : RecvEnd) (n : Nat) (s : RunState),
    (∀ b ∈ bs, ∀ m ∈ b.msgs, m.storeErr = none) →
    s.previews = s.archiveMsgs.take PreviewLogLinesLimit →
    n = min PreviewLogLinesLimit s.archiveMsgs.length →
    (runLoop bs ending n s).previews =
      (runLoop bs ending n s).archiveMsgs.take PreviewLogLinesLimit := by
  induction bs with
  | nil => intro ending n s _ h1 _; cases ending <;> exact h1
  | cons b rest ih =>
    intro ending n s hstore h1 h2
    have hb : ∀ m ∈ b.msgs, m.storeErr = none := hstore b (List.mem_cons_self b rest)
    have hrest : ∀ b2 ∈ rest, ∀ m ∈ b2.msgs, m.storeErr = none :=
      fun b2 hb2 => hstore b2 (List.mem_cons_of_mem b hb2)
    have htake := processMsgs_take b.msgs n s hb h1 h2
    rcases hp : processMsgs b.msgs n s with ⟨s1, n1, ab⟩
    rw [hp] at htake
    simp only at htake
    cases ab
    · cases hfl : b.flushErr with
      | some e =>
        simp only [runLoop, hp, hfl]
        exact htake.1
      | none =>
        simp only [runLoop, hp, hfl]
        exact ih ending n1 _ hrest (by simpa using htake.1) (by simpa using htake.2)
    · simp only [runLoop, hp]
      exact htake.1

theorem processMsgs_archive_all (ms : List MsgEv) : ∀ (n : Nat) (s : RunState),
    (∀ m ∈ ms, m.writeErr = none) →
    (processMsgs ms n s).1.archiveMsgs = s.archiveMsgs ++ ms.map MsgEv.msg := by
  induction ms with
  | nil => intro n s _; simp [processMsgs]
  | cons m rest ih =>
    intro n s h
    have hw : m.writeErr = none := h m (List.mem_cons_self m rest)
    have hrest : ∀ m2 ∈ rest, m2.writeErr = none :=
      fun m2 hm2 => h m2 (List.mem_cons_of_mem m hm2)
    by_cases hn : n < PreviewLogLinesLimit
    · cases hst : m.storeErr with
      | none =>
        simp only [processMsgs, hw, if_pos hn, hst]
        rw [ih _ _ hrest]
        simp
      | some e2 =>
        simp only [processMsgs, hw, if_pos hn, hst]
        rw [ih _ _ hrest]
        simp
    · simp only [processMsgs, hw, if_neg hn]
      rw [ih _ _ hrest]
      simp

theorem runLoop_archive_all (bs : List BatchEv) : ∀ (ending : RecvEnd) (n : Nat) (s : RunState),
    (∀ b ∈ bs, (∀ m ∈ b.msgs, m.writeErr = none) ∧ b.flushErr = none) →
    (runLoop bs ending n s).archiveMsgs =
      s.archiveMsgs ++ bs.foldr (fun b acc => b.msgs.map MsgEv.msg ++ acc) [] := by
  induction bs with
  | nil => intro ending n s _; cases ending <;> simp [runLoop]
  | cons b rest ih =>
    intro ending n s h
    have hb := h b (List.mem_cons_self b rest)
    have hrest : ∀ b2 ∈ rest, (∀ m ∈ b2.msgs, m.writeErr = none) ∧ b2.flushErr = none :=
      fun b2 hb2 => h b2 (List.mem_cons_of_mem b hb2)
    have hok := processMsgs_ok b.msgs n s hb.1
    have harch := processMsgs_archive_all b.msgs n s hb.1
    rcases hp : processMsgs b.msgs n s with ⟨s1, n1, ab⟩
    rw [hp] at hok harch
    simp only at hok harch
    cases ab
    · simp only [runLoop, hp, hb.2]
      rw [ih ending n1 _ hrest]
      simp [harch]
    · exact absurd hok.1 (by simp)

theorem processMsgs_lines (ms : List MsgEv) : ∀ (n : Nat) (s : RunState),
    s.archiveLines = s.archiveMsgs.map toLine →
    (processMsgs ms n s).1.archiveLines = (processMsgs ms n s).1.archiveMsgs.map toLine := by
  induction ms with
  | nil => intro n s h; exact h
  | cons m rest ih =>
    intro n s h
    cases hw : m.writeErr with
    | some e => simp only [processMsgs, hw]; exact h
    | none =>
      by_cases hn : n < PreviewLogLinesLimit
      · cases hst : m.storeErr with
        | none =>
          simp only [processMsgs, hw, if_pos hn, hst]
          exact ih _ _ (by simp [h])
        | some e2 =>
          simp only [processMsgs, hw, if_pos hn, hst]
          exact ih _ _ (by simp [h])
      · simp only [processMsgs, hw, if_neg hn]
        exact ih _ _ (by simp [h])

theorem runLoop_lines (bs : List BatchEv) : ∀ (ending : RecvEnd) (n : Nat) (s : RunState),
    s.archiveLines = s.archiveMsgs.map toLine →
    (runLoop bs ending n s).archiveLines = (runLoop bs ending n s).archiveMsgs.map toLine := by
  induction bs with
  | nil => intro ending n s h; cases ending <;> exact h
  | cons b rest ih =>
    intro ending n s h
    have hl := processMsgs_lines b.msgs n s h
    rcases hp : processMsgs b.msgs n s with ⟨s1, n1, ab⟩
    rw [hp] at hl
    simp only at hl
    cases ab
    · cases hfl : b.flushErr with
      | some e =>
        simp only [runLoop, hp, hfl]
        exact hl
      | none =>
        simp only [runLoop, hp, hfl]
        exact ih ending n1 _ hl
    · simp only [runLoop, hp]
      exact hl

end Logsearch

theorem digitChar_ne_newline (d : Nat) : digitChar d ≠ '\n' := by
  unfold digitChar
  repeat' split
  all_goals decide

theorem natDecimalAux_no_newline (fuel : Nat) : ∀ n, '\n' ∉ natDecimalAux fuel n := by
  induction fuel with
  | zero => intro n; simp [natDecimalAux]
  | succ fuel ih =>
    intro n
    by_cases h : n = 0
    · simp [natDecimalAux, h]
    · simp only [natDecimalAux, if_neg h]
      intro hmem
      rcases List.mem_append.mp hmem with h1 | h1
      · exact ih _ h1
      · exact digitChar_ne_newline (n % 10) (List.mem_singleton.mp h1).symm

theorem natDecimal_no_newline (n : Nat) : '\n' ∉ (natDecimal n).data := by
  unfold natDecimal
  by_cases h : n = 0
  · rw [if_pos h]; decide
  · rw [if_neg h]
    exact natDecimalAux_no_newline _ _

theorem formatTimeMillis_no_newline (t : Int) : '\n' ∉ (formatTimeMillis t).data := by
  unfold formatTimeMillis
  by_cases h : t < 0
  · rw [if_pos h, String.data_append]
    intro hmem
    rcases List.mem_append.mp hmem with h1 | h1
    · revert h1; decide
    · exact natDecimal_no_newline _ h1
  · rw [if_neg h]
    exact natDecimal_no_newline _

theorem logLevelName_no_newline (l : Int) : '\n' ∉ (logLevelName l).data := by
  unfold logLevelName
  repeat' split
  all_goals decide

theorem pathJoin_ne_empty (a b : String) : pathJoin a b ≠ "" := by
  unfold pathJoin
  intro h
  have h2 := congrArg String.data h
  rw [String.data_append, String.data_append] at h2
  have h3 := (List.append_eq_nil.mp (List.append_eq_nil.mp h2).1).2
  revert h3
  decide

/-- A tidb component, used as concrete input for witnesses and
counterexamples. -/
def cTiDB : Logsearch.Component :=
  { ip := "10.0.1.5", port := "4000", statusPort := "10080", serverType := "tidb" }

/-- A log message whose text itself contains a newline. -/
def msgMultiline : LogMessage := { time := 0, level := 2, message := "a\nb" }

/-- A plain single-line log message. -/
def msgPlain : LogMessage := { time := 0, level := 3, message := "hello" }

/-- C8: counterexample — `toLine` interpolates the message text verbatim, so
a message whose text contains a newline yields two newlines, not "exactly
one text line".  The level Info (code 2) is still rendered by name and the
millisecond time field is rendered in the fixed layout. -/
theorem claim_C8_counterexample :
    toLine msgMultiline = "[0] [Info] a\nb\n" ∧
    (toLine msgMultiline).data.count '\n' = 2 := by
  decide

/-- C8 (amended): `toLine` produces
`"[" ++ <timestamp> ++ "] [" ++ <level name> ++ "] " ++ <message> ++ "\n"`,
where the timestamp is rendered from the millisecond epoch time field in the
fixed layout and the level is rendered by name, not numeric code; the result
is exactly one text line (exactly one newline, at the end) whenever the
message text itself contains no newline. -/
theorem claim_C8_amended : ∀ m : LogMessage,
    toLine m = "[" ++ formatTimeMillis m.time ++ "] [" ++ logLevelName m.level ++ "] "
      ++ m.message ++ "\n" ∧
    ('\n' ∉ m.message.data → (toLine m).data.count '\n' = 1) := by
  intro m
  refine ⟨rfl, ?_⟩
  intro h
  unfold toLine
  simp only [String.data_append, List.count_append]
  rw [List.count_eq_zero.mpr (formatTimeMillis_no_newline m.time),
    List.count_eq_zero.mpr (logLevelName_no_newline m.level),
    List.count_eq_zero.mpr h]
  decide

/-- C8: witness of the amended claim at a concrete message. -/
theorem claim_C8_witness :
    toLine msgPlain = "[" ++ formatTimeMillis msgPlain.time ++ "] ["
      ++ logLevelName msgPlain.level ++ "] " ++ msgPlain.message ++ "\n" ∧
    (toLine msgPlain).data.count '\n' = 1 :=
  ⟨(claim_C8_amended msgPlain).1, (claim_C8_amended msgPlain).2 (by decide)⟩

/-- C10: a stream that ends immediately (EOF before any batch), with all
setup steps succeeding, leaves the task `Finished` with an empty error, the
archive present at `savedPath` with exactly one entry and zero written
lines, and no preview rows. -/
theorem claim_C10 : ∀ (c : Logsearch.Component) (gid : String) (w : Bool) (env : Logsearch.Env),
    env.setupOK → env.batches = [] → env.ending = RecvEnd.eof →
    (Logsearch.runTask c gid w env).state = TaskState.finished ∧
    (Logsearch.runTask c gid w env).error = "" ∧
    (Logsearch.runTask c gid w env).savedPath = Logsearch.archivePath c gid ∧
    (Logsearch.runTask c gid w env).savedPath ∈ (Logsearch.runTask c gid w env).fsPaths ∧
    (Logsearch.runTask c gid w env).archiveEntries = [Logsearch.Component.logFilename c] ∧
    (Logsearch.runTask c gid w env).archiveLines = [] ∧
    (Logsearch.runTask c gid w env).previews = [] ∧
    (Logsearch.runTask c gid w env).storeRecord = some TaskState.finished := by
  intro c gid w env hsetup hb he
  obtain ⟨hd, hs, hm, hc, hz⟩ := hsetup
  have hrb := Logsearch.runBody_setup c gid env hd hs hm hc hz
  rw [hb, he] at hrb
  have hrb2 : Logsearch.runBody c gid env = Logsearch.postSetupState c gid := hrb
  unfold Logsearch.runTask
  rw [hrb2]
  obtain ⟨e1, e2, e3, e4, e5, e6, e7, e8, e9, e10⟩ :=
    Logsearch.closeFn_ok w (Logsearch.postSetupState c gid) rfl
  refine ⟨e2, e1, ?_, ?_, ?_, ?_, ?_, e4⟩
  · rw [e6]; rfl
  · rw [e6, e7]; simp [Logsearch.postSetupState]
  · rw [e8]; rfl
  · rw [e9]; rfl
  · rw [e5]; rfl

/-- An environment with no failures and an immediately ending stream. -/
def envEmptyOK : Logsearch.Env :=
  { dialErr := none, streamOpenErr := none, mkdirErr := none, createErr := none,
    zipEntryErr := none, batches := [], ending := RecvEnd.eof }

/-- C10: witness at a concrete component, group and environment. -/
theorem claim_C10_witness :
    (Logsearch.runTask cTiDB "g10" false envEmptyOK).state = TaskState.finished ∧
    (Logsearch.runTask cTiDB "g10" false envEmptyOK).error = "" ∧
    (Logsearch.runTask cTiDB "g10" false envEmptyOK).savedPath =
      Logsearch.archivePath cTiDB "g10" ∧
    (Logsearch.runTask cTiDB "g10" false envEmptyOK).savedPath ∈
      (Logsearch.runTask cTiDB "g10" false envEmptyOK).fsPaths ∧
    (Logsearch.runTask cTiDB "g10" false envEmptyOK).archiveEntries =
      [Logsearch.Component.logFilename cTiDB] ∧
    (Logsearch.runTask cTiDB "g10" false envEmptyOK).archiveLines = [] ∧
    (Logsearch.runTask cTiDB "g10" false envEmptyOK).previews = [] ∧
    (Logsearch.runTask cTiDB "g10" false envEmptyOK).storeRecord = some TaskState.finished :=
  claim_C10 cTiDB "g10" false envEmptyOK (by decide) rfl rfl

/-- An environment whose only failure is the zip entry creation, after the
archive file itself was created. -/
def envZipFailC4 : Logsearch.Env :=
  { dialErr := none, streamOpenErr := none, mkdirErr := none, createErr := none,
    zipEntryErr := some "zip entry failed", batches := [], ending := RecvEnd.eof }

/-- C4: counterexample — when the zip entry creation fails, `os.Create` has
already created the archive file but `t.SavedPath` was never assigned, so
finalize (which deletes only `t.SavedPath`) leaves the partial archive file
on the filesystem: after termination in `Canceled`, an archive file of this
task remains, refuting "after termination no archive file ... remain for
that task". -/
theorem claim_C4_counterexample :
    (Logsearch.runTask cTiDB "g4" false envZipFailC4).state = TaskState.canceled ∧
    (Logsearch.runTask cTiDB "g4" false envZipFailC4).previews = [] ∧
    (Logsearch.runTask cTiDB "g4" false envZipFailC4).savedPath = "" ∧
    (Logsearch.runTask cTiDB "g4" false envZipFailC4).fsPaths =
      ["/logs/g4/10.0.1.5-4000.zip"] := by
  decide

/-- C4 (amended): for every task finalized with a recorded error, `close`
deletes the recorded archive path (when one was recorded), deletes the
task's preview rows, sets the stop time and persists the record as
`Canceled`; an archive file created before `savedPath` was recorded (zip
entry creation failure) is however not deleted. -/
theorem claim_C4_amended : ∀ (w : Bool) (s : Logsearch.RunState), s.error ≠ "" →
    (Logsearch.closeFn w s).state = TaskState.canceled ∧
    (Logsearch.closeFn w s).stopTimeSet = true ∧
    (Logsearch.closeFn w s).storeRecord = some TaskState.canceled ∧
    (Logsearch.closeFn w s).previews = [] ∧
    (s.savedPath ≠ "" → s.savedPath ∉ (Logsearch.closeFn w s).fsPaths) := by
  intro w s h
  obtain ⟨e1, e2, e3, e4, e5, e6, e7⟩ := Logsearch.closeFn_error w s h
  refine ⟨e2, e3, e4, e5, ?_⟩
  intro h2
  rw [e7, if_neg h2]
  intro hmem
  have := (List.mem_filter.mp hmem).2
  simp at this

/-- A task state with a recorded error, a recorded archive path and a
preview row, as finalize input. -/
def sErrC4 : Logsearch.RunState :=
  { error := "receive failed", savedPath := "/logs/g/x.zip",
    fsPaths := ["/logs/g/x.zip"], previews := [msgPlain],
    state := TaskState.running, cancelInstalled := true }

/-- C4: witness of the amended claim at a concrete errored task state. -/
theorem claim_C4_witness :
    (Logsearch.closeFn false sErrC4).state = TaskState.canceled ∧
    (Logsearch.closeFn false sErrC4).stopTimeSet = true ∧
    (Logsearch.closeFn false sErrC4).storeRecord = some TaskState.canceled ∧
    (Logsearch.closeFn false sErrC4).previews = [] ∧
    sErrC4.savedPath ∉ (Logsearch.closeFn false sErrC4).fsPaths := by
  have h := claim_C4_amended false sErrC4 (by decide)
  exact ⟨h.1, h.2.1, h.2.2.1, h.2.2.2.1, h.2.2.2.2 (by decide)⟩

theorem setRunning_not_mem_append {evs δ : List Event}
    (h1 : Event.setRunning ∉ evs)
    (hcl : ∀ ev ∈ δ, ev = Event.removePath ∨ ev = Event.cleanPreview ∨ ev = Event.doneSignal) :
    Event.setRunning ∉ evs ++ δ := by
  intro hmem
  rcases List.mem_append.mp hmem with h | h
  · exact h1 h
  · rcases hcl _ h with h2 | h2 | h2 <;> simp at h2

/-- An environment in which the dial and the stream open succeed but the
sink directory creation fails. -/
def envMkdirFail : Logsearch.Env :=
  { dialErr := none, streamOpenErr := none, mkdirErr := some "disk full",
    createErr := none, zipEntryErr := none, batches := [], ending := RecvEnd.eof }

/-- C2: counterexample — in the trace of a run whose storage (directory
creation) fails, the dial event occurs strictly before the mkdir event and
not the other way round: the code dials and opens the stream first and
attempts sink creation only afterwards, so a storage failure aborts the
task only after the remote connection was opened, refuting "sink creation
is attempted before the network dial". -/
theorem claim_C2_counterexample :
    precedesB Event.dial Event.mkdir
      (Logsearch.runTask cTiDB "g2" false envMkdirFail).events = true ∧
    precedesB Event.mkdir Event.dial
      (Logsearch.runTask cTiDB "g2" false envMkdirFail).events = false ∧
    (Logsearch.runTask cTiDB "g2" false envMkdirFail).error = "disk full" ∧
    (Logsearch.runTask cTiDB "g2" false envMkdirFail).state = TaskState.canceled := by
  decide

/-- C2 (amended): the network dial and the stream open are attempted before
sink creation; a storage (directory creation) failure still aborts the task
— the error is recorded, the record ends `Canceled` and `Running` is never
entered — but only after the network dial was attempted. -/
theorem claim_C2_amended : ∀ (c : Logsearch.Component) (gid : String) (w : Bool)
    (env : Logsearch.Env) (e : String),
    env.dialErr = none → env.streamOpenErr = none → env.mkdirErr = some e → e ≠ "" →
    (Logsearch.runTask c gid w env).error = e ∧
    (Logsearch.runTask c gid w env).state = TaskState.canceled ∧
    precedesB Event.dial Event.mkdir (Logsearch.runTask c gid w env).events = true ∧
    Event.setRunning ∉ (Logsearch.runTask c gid w env).events := by
  intro c gid w env e hd hs hm he
  have hrb := Logsearch.runBody_mkdirFail c gid env e hd hs hm
  have herr : (Logsearch.runBody c gid env).error = e := by rw [hrb]
  have hsp : (Logsearch.runBody c gid env).savedPath = "" := by rw [hrb]
  have hev : (Logsearch.runBody c gid env).events =
      [Event.dial, Event.openStream, Event.mkdir] := by rw [hrb]
  have hne : (Logsearch.runBody c gid env).error ≠ "" := by rw [herr]; exact he
  obtain ⟨f1, f2, f3, f4, f5⟩ :=
    Logsearch.closeFn_earlyFail w (Logsearch.runBody c gid env) hne hsp
  obtain ⟨δ, hδ, hcl⟩ := f5
  unfold Logsearch.runTask
  refine ⟨f2.trans herr, f1, ?_, ?_⟩
  · rw [hδ, hev]
    simp [precedesB]
  · rw [hδ, hev]
    exact setRunning_not_mem_append (by decide) hcl

/-- C2: witness of the amended claim at a concrete component, group and
environment. -/
theorem claim_C2_witness :
    (Logsearch.runTask cTiDB "g2" true envMkdirFail).error = "disk full" ∧
    (Logsearch.runTask cTiDB "g2" true envMkdirFail).state = TaskState.canceled ∧
    precedesB Event.dial Event.mkdir
      (Logsearch.runTask cTiDB "g2" true envMkdirFail).events = true ∧
    Event.setRunning ∉ (Logsearch.runTask cTiDB "g2" true envMkdirFail).events :=
  claim_C2_amended cTiDB "g2" true envMkdirFail "disk full" rfl rfl rfl (by decide)

/-- An environment whose only failure is the zip entry creation. -/
def envZipFailC3 : Logsearch.Env :=
  { dialErr := none, streamOpenErr := none, mkdirErr := none, createErr := none,
    zipEntryErr := some "zip create failed", batches := [], ending := RecvEnd.eof }

/-- C3: counterexample — when the zip entry creation fails (after the
archive file was created), the record does go `Queued → Canceled` without
visiting `Running` and `savedPath` stays empty, but a partial archive file
remains on the filesystem, refuting "no partial archive file remains on the
filesystem". -/
theorem claim_C3_counterexample :
    (Logsearch.runTask cTiDB "g3" false envZipFailC3).state = TaskState.canceled ∧
    Event.setRunning ∉ (Logsearch.runTask cTiDB "g3" false envZipFailC3).events ∧
    (Logsearch.runTask cTiDB "g3" false envZipFailC3).savedPath = "" ∧
    (Logsearch.runTask cTiDB "g3" false envZipFailC3).fsPaths =
      ["/logs/g3/10.0.1.5-4000.zip"] := by
  decide

/-- C3 (amended): `savedPath` is non-empty exactly when the whole setup
(dial, stream open and full sink creation) succeeded; on any setup failure
the record ends `Canceled` without ever visiting `Running`; and when the
failure happens at the dial, the stream open, the directory creation or the
file creation, no archive file remains on the filesystem — only a zip entry
creation failure leaves the already created archive file behind. -/
theorem claim_C3_amended : ∀ (c : Logsearch.Component) (gid : String) (w : Bool)
    (env : Logsearch.Env), env.proper →
    ((Logsearch.runTask c gid w env).savedPath ≠ "" ↔ env.setupOK) ∧
    (¬ env.setupOK →
      (Logsearch.runTask c gid w env).state = TaskState.canceled ∧
      Event.setRunning ∉ (Logsearch.runTask c gid w env).events) ∧
    ((env.dialErr ≠ none ∨ env.streamOpenErr ≠ none ∨ env.mkdirErr ≠ none ∨
        env.createErr ≠ none) →
      (Logsearch.runTask c gid w env).fsPaths = []) := by
  intro c gid w env hp
  obtain ⟨pd, ps, pm, pc, pz, pb, pe⟩ := hp
  unfold Logsearch.runTask
  rcases hd : env.dialErr with _ | e
  · rcases hs : env.streamOpenErr with _ | e
    · rcases hm : env.mkdirErr with _ | e
      · rcases hc : env.createErr with _ | e
        · rcases hz : env.zipEntryErr with _ | e
          · have hsetup : env.setupOK := ⟨hd, hs, hm, hc, hz⟩
            rw [Logsearch.runBody_setup c gid env hd hs hm hc hz]
            have hsp : (Logsearch.runLoop env.batches env.ending 0
                (Logsearch.postSetupState c gid)).savedPath =
                Logsearch.archivePath c gid :=
              Logsearch.frame_savedPath
                (Logsearch.runLoop_frame env.batches env.ending 0 _)
            refine ⟨?_, fun hns => absurd hsetup hns, ?_⟩
            · rw [Logsearch.closeFn_savedPath, hsp]
              exact iff_of_true (pathJoin_ne_empty _ _) hsetup
            · intro hdis
              rcases hdis with h | h | h | h <;> exact absurd rfl h
          · have he : e ≠ "" := fun h0 => pz (by rw [h0] at hz; exact hz)
            have hns : ¬ env.setupOK := fun hsu => by
              rw [hsu.2.2.2.2] at hz; exact Option.noConfusion hz
            have hrb := Logsearch.runBody_zipFail c gid env e hd hs hm hc hz
            have herr : (Logsearch.runBody c gid env).error = e := by rw [hrb]
            have hsp : (Logsearch.runBody c gid env).savedPath = "" := by rw [hrb]
            have hev : (Logsearch.runBody c gid env).events =
                [Event.dial, Event.openStream, Event.mkdir, Event.createFile,
                  Event.zipCreate] := by rw [hrb]
            have hne : (Logsearch.runBody c gid env).error ≠ "" := by
              rw [herr]; exact he
            obtain ⟨f1, f2, f3, f4, f5⟩ :=
              Logsearch.closeFn_earlyFail w (Logsearch.runBody c gid env) hne hsp
            obtain ⟨δ, hδ, hcl⟩ := f5
            refine ⟨by rw [f3]; exact iff_of_false (by simp) hns,
              fun _ => ⟨f1, ?_⟩, ?_⟩
            · rw [hδ, hev]
              exact setRunning_not_mem_append (by decide) hcl
            · intro hdis
              rcases hdis with h | h | h | h <;> exact absurd rfl h
        · have he : e ≠ "" := fun h0 => pc (by rw [h0] at hc; exact hc)
          have hns : ¬ env.setupOK := fun hsu => by
            rw [hsu.2.2.2.1] at hc; exact Option.noConfusion hc
          have hrb := Logsearch.runBody_createFail c gid env e hd hs hm hc
          have herr : (Logsearch.runBody c gid env).error = e := by rw [hrb]
          have hsp : (Logsearch.runBody c gid env).savedPath = "" := by rw [hrb]
          have hfs : (Logsearch.runBody c gid env).fsPaths = [] := by rw [hrb]
          have hev : (Logsearch.runBody c gid env).events =
              [Event.dial, Event.openStream, Event.mkdir, Event.createFile] := by rw [hrb]
          have hne : (Logsearch.runBody c gid env).error ≠ "" := by
            rw [herr]; exact he
          obtain ⟨f1, f2, f3, f4, f5⟩ :=
            Logsearch.closeFn_earlyFail w (Logsearch.runBody c gid env) hne hsp
          obtain ⟨δ, hδ, hcl⟩ := f5
          refine ⟨by rw [f3]; exact iff_of_false (by simp) hns,
            fun _ => ⟨f1, ?_⟩, fun _ => f4.trans hfs⟩
          rw [hδ, hev]
          exact setRunning_not_mem_append (by decide) hcl
      · have he : e ≠ "" := fun h0 => pm (by rw [h0] at hm; exact hm)
        have hns : ¬ env.setupOK := fun hsu => by
          rw [hsu.2.2.1] at hm; exact Option.noConfusion hm
        have hrb := Logsearch.runBody_mkdirFail c gid env e hd hs hm
        have herr : (Logsearch.runBody c gid env).error = e := by rw [hrb]
        have hsp : (Logsearch.runBody c gid env).savedPath = "" := by rw [hrb]
        have hfs : (Logsearch.runBody c gid env).fsPaths = [] := by rw [hrb]
        have hev : (Logsearch.runBody c gid env).events =
            [Event.dial, Event.openStream, Event.mkdir] := by rw [hrb]
        have hne : (Logsearch.runBody c gid env).error ≠ "" := by
          rw [herr]; exact he
        obtain ⟨f1, f2, f3, f4, f5⟩ :=
          Logsearch.closeFn_earlyFail w (Logsearch.runBody c gid env) hne hsp
        obtain ⟨δ, hδ, hcl⟩ := f5
        refine ⟨by rw [f3]; exact iff_of_false (by simp) hns,
          fun _ => ⟨f1, ?_⟩, fun _ => f4.trans hfs⟩
        rw [hδ, hev]
        exact setRunning_not_mem_append (by decide) hcl
    · have he : e ≠ "" := fun h0 => ps (by rw [h0] at hs; exact hs)
      have hns : ¬ env.setupOK := fun hsu => by
        rw [hsu.2.1] at hs; exact Option.noConfusion hs
      have hrb := Logsearch.runBody_streamFail c gid env e hd hs
      have herr : (Logsearch.runBody c gid env).error = e := by rw [hrb]
      have hsp : (Logsearch.runBody c gid env).savedPath = "" := by rw [hrb]
      have hfs : (Logsearch.runBody c gid env).fsPaths = [] := by rw [hrb]
      have hev : (Logsearch.runBody c gid env).events =
          [Event.dial, Event.openStream] := by rw [hrb]
      have hne : (Logsearch.runBody c gid env).error ≠ "" := by
        rw [herr]; exact he
      obtain ⟨f1, f2, f3, f4, f5⟩ :=
        Logsearch.closeFn_earlyFail w (Logsearch.runBody c gid env) hne hsp
      obtain ⟨δ, hδ, hcl⟩ := f5
      refine ⟨by rw [f3]; exact iff_of_false (by simp) hns,
        fun _ => ⟨f1, ?_⟩, fun _ => f4.trans hfs⟩
      rw [hδ, hev]
      exact setRunning_not_mem_append (by decide) hcl
  · have he : e ≠ "" := fun h0 => pd (by rw [h0] at hd; exact hd)
    have hns : ¬ env.setupOK := fun hsu => by
      rw [hsu.1] at hd; exact Option.noConfusion hd
    have hrb := Logsearch.runBody_dialFail c gid env e hd
    have herr : (Logsearch.runBody c gid env).error = e := by rw [hrb]
    have hsp : (Logsearch.runBody c gid env).savedPath = "" := by rw [hrb]
    have hfs : (Logsearch.runBody c gid env).fsPaths = [] := by rw [hrb]
    have hev : (Logsearch.runBody c gid env).events = [Event.dial] := by rw [hrb]
    have hne : (Logsearch.runBody c gid env).error ≠ "" := by
      rw [herr]; exact he
    obtain ⟨f1, f2, f3, f4, f5⟩ :=
      Logsearch.closeFn_earlyFail w (Logsearch.runBody c gid env) hne hsp
    obtain ⟨δ, hδ, hcl⟩ := f5
    refine ⟨by rw [f3]; exact iff_of_false (by simp) hns,
      fun _ => ⟨f1, ?_⟩, fun _ => f4.trans hfs⟩
    rw [hδ, hev]
    exact setRunning_not_mem_append (by decide) hcl

namespace Logsearch

end Logsearch

/-- C3: witness of the amended claim at a concrete fully succeeding
environment. -/
theorem claim_C3_witness :
    ((Logsearch.runTask cTiDB "g3w" false envEmptyOK).savedPath ≠ "" ↔
      envEmptyOK.setupOK) ∧
    (¬ envEmptyOK.setupOK →
      (Logsearch.runTask cTiDB "g3w" false envEmptyOK).state = TaskState.canceled ∧
      Event.setRunning ∉ (Logsearch.runTask cTiDB "g3w" false envEmptyOK).events) ∧
    ((envEmptyOK.dialErr ≠ none ∨ envEmptyOK.streamOpenErr ≠ none ∨
        envEmptyOK.mkdirErr ≠ none ∨ envEmptyOK.createErr ≠ none) →
      (Logsearch.runTask cTiDB "g3w" false envEmptyOK).fsPaths = []) :=
  claim_C3_amended cTiDB "g3w" false envEmptyOK (by decide)

/-- C5: for every task and environment, the number of preview rows appended
during execution never exceeds `PreviewLogLinesLimit`; the archive content is
exactly the formatted lines of the archived messages; when every preview
insert succeeds, the preview rows are exactly the first
`PreviewLogLinesLimit` archived messages in order (so every message beyond
the cap is written only to the archive); and on a fully clean run the
archived messages are exactly all messages received from the stream, with
the preview their capped prefix. -/
theorem claim_C5 : ∀ (c : Logsearch.Component) (gid : String) (env : Logsearch.Env),
    (Logsearch.runBody c gid env).previews.length ≤ Logsearch.PreviewLogLinesLimit ∧
    (Logsearch.runBody c gid env).archiveLines =
      (Logsearch.runBody c gid env).archiveMsgs.map toLine ∧
    (env.storeOK →
      (Logsearch.runBody c gid env).previews =
        (Logsearch.runBody c gid env).archiveMsgs.take Logsearch.PreviewLogLinesLimit) ∧
    (env.setupOK → env.storeOK → env.cleanBatches →
      (Logsearch.runBody c gid env).archiveMsgs = env.allMsgs ∧
      (Logsearch.runBody c gid env).previews =
        env.allMsgs.take Logsearch.PreviewLogLinesLimit) := by
  intro c gid env
  rcases hd : env.dialErr with _ | e
  · rcases hs : env.streamOpenErr with _ | e
    · rcases hm : env.mkdirErr with _ | e
      · rcases hc : env.createErr with _ | e
        · rcases hz : env.zipEntryErr with _ | e
          · have hrb := Logsearch.runBody_setup c gid env hd hs hm hc hz
            rw [hrb]
            refine ⟨?_, ?_, ?_, ?_⟩
            · exact Logsearch.runLoop_cap env.batches env.ending 0 _
                Nat.le.refl (Nat.zero_le _)
            · exact Logsearch.runLoop_lines env.batches env.ending 0 _ rfl
            · intro hstore
              exact Logsearch.runLoop_take env.batches env.ending 0 _ hstore rfl
                (Nat.min_zero _).symm
            · intro _ hstore hclean
              have harch := Logsearch.runLoop_archive_all env.batches env.ending 0
                (Logsearch.postSetupState c gid) hclean
              have harch2 : (Logsearch.runLoop env.batches env.ending 0
                  (Logsearch.postSetupState c gid)).archiveMsgs = env.allMsgs := by
                rw [harch]
                simp [Logsearch.Env.allMsgs, Logsearch.postSetupState]
              refine ⟨harch2, ?_⟩
              have htake := Logsearch.runLoop_take env.batches env.ending 0
                (Logsearch.postSetupState c gid) hstore rfl
                (by simp [Logsearch.postSetupState])
              rw [htake, harch2]
          · have hrb := Logsearch.runBody_zipFail c gid env e hd hs hm hc hz
            have h1 : (Logsearch.runBody c gid env).previews = [] := by rw [hrb]
            have h2 : (Logsearch.runBody c gid env).archiveLines = [] := by rw [hrb]
            have h3 : (Logsearch.runBody c gid env).archiveMsgs = [] := by rw [hrb]
            exact ⟨by rw [h1]; decide, by rw [h2, h3]; rfl, fun _ => by rw [h1, h3]; rfl,
              fun hsu _ _ => Option.noConfusion (hz.symm.trans hsu.2.2.2.2)⟩
        · have hrb := Logsearch.runBody_createFail c gid env e hd hs hm hc
          have h1 : (Logsearch.runBody c gid env).previews = [] := by rw [hrb]
          have h2 : (Logsearch.runBody c gid env).archiveLines = [] := by rw [hrb]
          have h3 : (Logsearch.runBody c gid env).archiveMsgs = [] := by rw [hrb]
          exact ⟨by rw [h1]; decide, by rw [h2, h3]; rfl, fun _ => by rw [h1, h3]; rfl,
            fun hsu _ _ => Option.noConfusion (hc.symm.trans hsu.2.2.2.1)⟩
      · have hrb := Logsearch.runBody_mkdirFail c gid env e hd hs hm
        have h1 : (Logsearch.runBody c gid env).previews = [] := by rw [hrb]
        have h2 : (Logsearch.runBody c gid env).archiveLines = [] := by rw [hrb]
        have h3 : (Logsearch.runBody c gid env).archiveMsgs = [] := by rw [hrb]
        exact ⟨by rw [h1]; decide, by rw [h2, h3]; rfl, fun _ => by rw [h1, h3]; rfl,
          fun hsu _ _ => Option.noConfusion (hm.symm.trans hsu.2.2.1)⟩
    · have hrb := Logsearch.runBody_streamFail c gid env e hd hs
      have h1 : (Logsearch.runBody c gid env).previews = [] := by rw [hrb]
      have h2 : (Logsearch.runBody c gid env).archiveLines = [] := by rw [hrb]
      have h3 : (Logsearch.runBody c gid env).archiveMsgs = [] := by rw [hrb]
      exact ⟨by rw [h1]; decide, by rw [h2, h3]; rfl, fun _ => by rw [h1, h3]; rfl,
        fun hsu _ _ => Option.noConfusion (hs.symm.trans hsu.2.1)⟩
  · have hrb := Logsearch.runBody_dialFail c gid env e hd
    have h1 : (Logsearch.runBody c gid env).previews = [] := by rw [hrb]
    have h2 : (Logsearch.runBody c gid env).archiveLines = [] := by rw [hrb]
    have h3 : (Logsearch.runBody c gid env).archiveMsgs = [] := by rw [hrb]
    exact ⟨by rw [h1]; decide, by rw [h2, h3]; rfl, fun _ => by rw [h1, h3]; rfl,
      fun hsu _ _ => Option.noConfusion (hd.symm.trans hsu.1)⟩

/-- A second plain log message. -/
def msgSecond : LogMessage := { time := 0, level := 6, message := "oops" }

/-- A clean batch carrying two messages. -/
def batchTwo : BatchEv :=
  { msgs := [{ msg := msgPlain, writeErr := none, storeErr := none },
             { msg := msgSecond, writeErr := none, storeErr := none }],
    flushErr := none }

/-- An environment with one clean two-message batch ending in EOF. -/
def envTwoMsgs : Logsearch.Env :=
  { dialErr := none, streamOpenErr := none, mkdirErr := none, createErr := none,
    zipEntryErr := none, batches := [batchTwo], ending := RecvEnd.eof }

/-- C5: witness at a concrete two-message environment. -/
theorem claim_C5_witness :
    (Logsearch.runBody cTiDB "g5" envTwoMsgs).previews.length ≤
      Logsearch.PreviewLogLinesLimit ∧
    (Logsearch.runBody cTiDB "g5" envTwoMsgs).previews =
      (Logsearch.runBody cTiDB "g5" envTwoMsgs).archiveMsgs.take
        Logsearch.PreviewLogLinesLimit ∧
    (Logsearch.runBody cTiDB "g5" envTwoMsgs).archiveMsgs = envTwoMsgs.allMsgs :=
  ⟨(claim_C5 cTiDB "g5" envTwoMsgs).1,
   (claim_C5 cTiDB "g5" envTwoMsgs).2.2.1 (by decide),
   ((claim_C5 cTiDB "g5" envTwoMsgs).2.2.2 (by decide) (by decide) (by decide)).1⟩

/-- C6: on a run whose setup succeeds and whose writes and flushes are
clean, an end-of-stream signal terminates the task with an empty error and
state `Finished`; a receive error `e ≠ ""` is recorded as the task error and
the task ends `Canceled`; and the dial is performed exactly once (no
automatic retry). -/
theorem claim_C6 : ∀ (c : Logsearch.Component) (gid : String) (w : Bool)
    (env : Logsearch.Env), env.setupOK → env.cleanBatches →
    (env.ending = RecvEnd.eof →
      (Logsearch.runTask c gid w env).error = "" ∧
      (Logsearch.runTask c gid w env).state = TaskState.finished) ∧
    (∀ e, e ≠ "" → env.ending = RecvEnd.recvErr e →
      (Logsearch.runTask c gid w env).error = e ∧
      (Logsearch.runTask c gid w env).state = TaskState.canceled) ∧
    (Logsearch.runTask c gid w env).events.count Event.dial = 1 := by
  intro c gid w env hsetup hclean
  obtain ⟨hd, hs, hm, hc, hz⟩ := hsetup
  have hrb := Logsearch.runBody_setup c gid env hd hs hm hc hz
  unfold Logsearch.runTask
  rw [hrb]
  refine ⟨?_, ?_, ?_⟩
  · intro hend
    rw [hend]
    have herr := Logsearch.runLoop_clean_eof env.batches 0
      (Logsearch.postSetupState c gid) hclean
    obtain ⟨o1, o2, _⟩ := Logsearch.closeFn_ok w _ (herr.trans rfl)
    exact ⟨o1, o2⟩
  · intro e he hend
    rw [hend]
    have herr := Logsearch.runLoop_clean_recvErr env.batches e 0
      (Logsearch.postSetupState c gid) hclean
    have hne : (Logsearch.runLoop env.batches (RecvEnd.recvErr e) 0
        (Logsearch.postSetupState c gid)).error ≠ "" := by rw [herr]; exact he
    obtain ⟨c1, c2, _⟩ := Logsearch.closeFn_error w _ hne
    exact ⟨c1.trans herr, c2⟩
  · have hloop := Logsearch.runLoop_count_of_ne env.batches Event.dial
      (by decide) (by decide) (by decide) env.ending 0 (Logsearch.postSetupState c gid)
    obtain ⟨δ, hδ, hcl⟩ := Logsearch.closeFn_events w
      (Logsearch.runLoop env.batches env.ending 0 (Logsearch.postSetupState c gid))
    rw [hδ, List.count_append, hloop]
    have hδ0 : δ.count Event.dial = 0 :=
      List.count_eq_zero.mpr (fun hmem => by rcases hcl _ hmem with h2 | h2 | h2 <;> simp at h2)
    have h0 : (Logsearch.postSetupState c gid).events.count Event.dial = 1 := rfl
    rw [hδ0, h0]

/-- An environment with one clean batch whose stream then fails with a
receive error. -/
def envRecvErrC6 : Logsearch.Env :=
  { dialErr := none, streamOpenErr := none, mkdirErr := none, createErr := none,
    zipEntryErr := none, batches := [batchTwo],
    ending := RecvEnd.recvErr "rpc error: connection reset" }

/-- C6: witness at one EOF-terminated and one error-terminated concrete
environment. -/
theorem claim_C6_witness :
    ((Logsearch.runTask cTiDB "g6" false envTwoMsgs).error = "" ∧
      (Logsearch.runTask cTiDB "g6" false envTwoMsgs).state = TaskState.finished) ∧
    ((Logsearch.runTask cTiDB "g6b" false envRecvErrC6).error =
        "rpc error: connection reset" ∧
      (Logsearch.runTask cTiDB "g6b" false envRecvErrC6).state = TaskState.canceled) ∧
    (Logsearch.runTask cTiDB "g6" false envTwoMsgs).events.count Event.dial = 1 :=
  ⟨(claim_C6 cTiDB "g6" false envTwoMsgs (by decide) (by decide)).1 rfl,
   (claim_C6 cTiDB "g6b" false envRecvErrC6 (by decide) (by decide)).2.1
     "rpc error: connection reset" (by decide) rfl,
   (claim_C6 cTiDB "g6" false envTwoMsgs (by decide) (by decide)).2.2⟩

namespace Logs

/-- The archive path used by the logs task. -/
def archivePath (r : ReqInfo) (gid : String) : String :=
  pathJoin (pathJoin (pathJoin tempDir "dashboard-logs") gid) r.zipFilename

/-- The logs task state right after `db.startTask`, entering the receive
loop. -/
def postSetupState (r : ReqInfo) (gid : String) : RunState :=
  { cancelInstalled := true,
    savedPath := archivePath r gid,
    fsPaths := [archivePath r gid],
    archiveEntries := [r.logFilename],
    dbStatus := some DbStatus.taskStarted,
    events := [Event.dial, Event.openStream, Event.mkdir, Event.createFile,
      Event.zipCreate] }

theorem runBody_allOk (r : ReqInfo) (gid : String) (env : Env)
    (h1 : env.dialErr = none) (h2 : env.streamOpenErr = none) (h3 : env.mkdirErr = none)
    (h4 : env.createErr = none) (h5 : env.zipEntryErr = none)
    (h6 : env.startTaskErr = none) :
    runBody r gid env = runLoop env.batches env.ending 0 (postSetupState r gid) := by
  simp [runBody, h1, h2, h3, h4, h5, h6, postSetupState, archivePath]

theorem runLoop_firstInsertFail (b : BatchEv) (rest : List BatchEv) (ending : RecvEnd)
    (m : MsgEv) (mrest : List MsgEv) (e : String) (s : RunState)
    (hm2 : b.msgs = m :: mrest) (hw : m.writeErr = none) (hst : m.storeErr = some e) :
    (runLoop (b :: rest) ending 0 s).err = some e := by
  simp only [runLoop, hm2]
  simp only [processMsgs, hw, hst,
    if_pos (show (0 : Nat) < PreviewLogLinesLimit by decide)]

theorem closeFn_err (s : RunState) (e : String) (h : s.err = some e) :
    (closeFn s).err = some e ∧ (closeFn s).dbStatus = some DbStatus.taskCanceled := by
  constructor <;> simp [closeFn, h]

end Logs

/-- A batch whose single message is written to the archive but whose store
preview insert fails. -/
def batchStoreFail : BatchEv :=
  { msgs := [{ msg := msgPlain, writeErr := none, storeErr := some "db insert failed" }],
    flushErr := none }

/-- An environment whose only failure is the store preview insert. -/
def envStoreFail : Logsearch.Env :=
  { dialErr := none, streamOpenErr := none, mkdirErr := none, createErr := none,
    zipEntryErr := none, batches := [batchStoreFail], ending := RecvEnd.eof }

/-- C7: counterexample — in logsearch `Task.run`, the result of
`dbClient.newPreview` is discarded: with a failing store preview insert (the
`previewAppend` call is in the trace but no row was stored), the task still
finishes with an empty error and state `Finished` and keeps writing the
archive, so a Store failure during execution is silently swallowed rather
than propagated as a task error. -/
theorem claim_C7_counterexample :
    (Logsearch.runTask cTiDB "g7" false envStoreFail).error = "" ∧
    (Logsearch.runTask cTiDB "g7" false envStoreFail).state = TaskState.finished ∧
    (Logsearch.runTask cTiDB "g7" false envStoreFail).previews = [] ∧
    Event.previewAppend ∈ (Logsearch.runTask cTiDB "g7" false envStoreFail).events ∧
    (Logsearch.runTask cTiDB "g7" false envStoreFail).archiveMsgs = [msgPlain] := by
  decide

/-- C7 (amended): in the logsearch implementation the outcome of the task is
independent of store preview failures — a run with successful setup, clean
writes and flushes and an EOF ending terminates `Finished` with an empty
error whatever the preview-insert outcomes are (store failures are
swallowed); in the logs implementation a preview-insert failure is
propagated: it is recorded on `t.err`, terminates the task and the record
is persisted as canceled. -/
theorem claim_C7_amended :
    (∀ (c : Logsearch.Component) (gid : String) (w : Bool) (env : Logsearch.Env),
      env.setupOK → env.cleanBatches → env.ending = RecvEnd.eof →
      (Logsearch.runTask c gid w env).error = "" ∧
      (Logsearch.runTask c gid w env).state = TaskState.finished) ∧
    (∀ (r : Logs.ReqInfo) (gid : String) (env : Logs.Env) (e : String)
        (b : BatchEv) (rest : List BatchEv) (m : MsgEv) (mrest : List MsgEv),
      env.setupOK → env.batches = b :: rest → b.msgs = m :: mrest →
      m.writeErr = none → m.storeErr = some e →
      (Logs.runTask r gid env).err = some e ∧
      (Logs.runTask r gid env).dbStatus = some Logs.DbStatus.taskCanceled) := by
  constructor
  · intro c gid w env hsu hclean hend
    obtain ⟨hd, hs, hm, hc, hz⟩ := hsu
    have hrb := Logsearch.runBody_setup c gid env hd hs hm hc hz
    unfold Logsearch.runTask
    rw [hrb, hend]
    have herr := Logsearch.runLoop_clean_eof env.batches 0
      (Logsearch.postSetupState c gid) hclean
    obtain ⟨o1, o2, _⟩ := Logsearch.closeFn_ok w _ (herr.trans rfl)
    exact ⟨o1, o2⟩
  · intro r gid env e b rest m mrest hsu hb hm2 hw hst
    obtain ⟨h1, h2, h3, h4, h5, h6⟩ := hsu
    have hrb := Logs.runBody_allOk r gid env h1 h2 h3 h4 h5 h6
    unfold Logs.runTask
    rw [hrb, hb]
    exact Logs.closeFn_err _ e
      (Logs.runLoop_firstInsertFail b rest env.ending m mrest e
        (Logs.postSetupState r gid) hm2 hw hst)

/-- A tikv request target for the logs variant. -/
def reqTiKV : Logs.ReqInfo := { serverType := "tikv", ip := "10.0.1.7", port := "20180" }

/-- A logs-variant environment whose only failure is the preview insert. -/
def envLogsInsertFail : Logs.Env :=
  { dialErr := none, streamOpenErr := none, mkdirErr := none, createErr := none,
    zipEntryErr := none, startTaskErr := none, batches := [batchStoreFail],
    ending := RecvEnd.eof }

/-- C7: witness of the amended claim at concrete environments for both
implementations. -/
theorem claim_C7_witness :
    ((Logsearch.runTask cTiDB "g7w" false envStoreFail).error = "" ∧
      (Logsearch.runTask cTiDB "g7w" false envStoreFail).state = TaskState.finished) ∧
    ((Logs.runTask reqTiKV "g7w" envLogsInsertFail).err = some "db insert failed" ∧
      (Logs.runTask reqTiKV "g7w" envLogsInsertFail).dbStatus =
        some Logs.DbStatus.taskCanceled) :=
  ⟨claim_C7_amended.1 cTiDB "g7w" false envStoreFail (by decide) (by decide) rfl,
   claim_C7_amended.2 reqTiKV "g7w" envLogsInsertFail "db insert failed" batchStoreFail
     [] { msg := msgPlain, writeErr := none, storeErr := some "db insert failed" } []
     (by decide) rfl rfl rfl rfl⟩

/-- C1: counterexample — a task that ran to completion (terminal state
`Finished`) still has its cancellation handle installed (`t.cancel` is set
at the start of `run` and never cleared), so `Abort` on an already-terminal
task does not return the not-running error: it takes the success branch,
refuting "Abort on a task that has already reached a terminal state returns
a not-running/invalid-operation error". -/
theorem claim_C1_counterexample :
    (Logsearch.runTask cTiDB "g1" false envEmptyOK).state = TaskState.finished ∧
    (Logsearch.runTask cTiDB "g1" false envEmptyOK).cancelInstalled = true ∧
    (Logsearch.abort (Logsearch.runTask cTiDB "g1" false envEmptyOK)).1 =
      AbortResult.ok := by
  decide

/-- C1 (amended): `Abort` returns the not-running error precisely when no
cancellation handle was ever installed (execution never started), and then
performs no cleanup (the state is untouched) — in both implementations; in
the logsearch implementation, aborting a running task (cancellation makes
the pending receive fail, with a waiter installed on the rendezvous channel)
ends with the record `Canceled` and persisted as such, the preview rows
removed, the archive path removed from the filesystem, and the rendezvous
signal that releases `Abort` as the very last event — after all cleanup.
`Abort` on an already-terminal task does not return the error (the handle
stays installed). -/
theorem claim_C1_amended :
    (∀ s : Logsearch.RunState, s.cancelInstalled = false →
      Logsearch.abort s = (AbortResult.notRunning, s)) ∧
    (∀ s : Logs.RunState, s.cancelInstalled = false →
      Logs.abort s = (AbortResult.notRunning, s)) ∧
    (∀ (c : Logsearch.Component) (gid : String) (env : Logsearch.Env),
      env.setupOK → env.proper → env.ending = RecvEnd.recvErr "context canceled" →
      (Logsearch.runTask c gid true env).state = TaskState.canceled ∧
      (Logsearch.runTask c gid true env).storeRecord = some TaskState.canceled ∧
      (Logsearch.runTask c gid true env).previews = [] ∧
      (Logsearch.runTask c gid true env).savedPath ∉
        (Logsearch.runTask c gid true env).fsPaths ∧
      (Logsearch.runTask c gid true env).events.getLast? = some Event.doneSignal) := by
  refine ⟨?_, ?_, ?_⟩
  · intro s h
    simp [Logsearch.abort, h]
  · intro s h
    simp [Logs.abort, h]
  · intro c gid env hsu hp hend
    obtain ⟨hd, hs, hm, hc, hz⟩ := hsu
    obtain ⟨pd, ps, pm, pc, pz, pb, pe⟩ := hp
    have hrb := Logsearch.runBody_setup c gid env hd hs hm hc hz
    unfold Logsearch.runTask
    rw [hrb, hend]
    have hne := Logsearch.runLoop_recvErr_ne env.batches "context canceled" (by decide)
      0 (Logsearch.postSetupState c gid) pb
    obtain ⟨c1, c2, c3, c4, c5, c6, c7⟩ := Logsearch.closeFn_error true _ hne
    have hsp : (Logsearch.runLoop env.batches (RecvEnd.recvErr "context canceled") 0
        (Logsearch.postSetupState c gid)).savedPath = Logsearch.archivePath c gid :=
      Logsearch.frame_savedPath (Logsearch.runLoop_frame env.batches _ 0 _)
    refine ⟨c2, c4, c5, ?_, Logsearch.closeFn_true_last _⟩
    rw [c6, c7]
    simp only [hsp]
    have hne2 : ¬ (Logsearch.archivePath c gid = "") := pathJoin_ne_empty _ _
    rw [if_neg hne2]
    intro hmem
    have h2 := (List.mem_filter.mp hmem).2
    simp at h2

/-- An all-clean environment whose stream is ended by the abort-induced
cancellation error. -/
def envAborted : Logsearch.Env :=
  { dialErr := none, streamOpenErr := none, mkdirErr := none, createErr := none,
    zipEntryErr := none, batches := [], ending := RecvEnd.recvErr "context canceled" }

/-- C1: witness of the amended claim at a never-started state and at a
concrete aborted run. -/
theorem claim_C1_witness :
    Logsearch.abort { cancelInstalled := false } =
      (AbortResult.notRunning, ({ cancelInstalled := false } : Logsearch.RunState)) ∧
    ((Logsearch.runTask cTiDB "g1w" true envAborted).state = TaskState.canceled ∧
      (Logsearch.runTask cTiDB "g1w" true envAborted).storeRecord =
        some TaskState.canceled ∧
      (Logsearch.runTask cTiDB "g1w" true envAborted).previews = [] ∧
      (Logsearch.runTask cTiDB "g1w" true envAborted).savedPath ∉
        (Logsearch.runTask cTiDB "g1w" true envAborted).fsPaths ∧
      (Logsearch.runTask cTiDB "g1w" true envAborted).events.getLast? =
        some Event.doneSignal) :=
  ⟨claim_C1_amended.1 { cancelInstalled := false } rfl,
   claim_C1_amended.2.2 cTiDB "g1w" envAborted (by decide) (by decide) rfl⟩
